import Mathlib

set_option maxRecDepth 20000

/-!
Verification development for `crates/context-graph-benchmark/scripts/prepare_huggingface.py`,
the resumable multi-source text-ingestion pipeline of the contextgraph repository.

The Python source is shallowly embedded below.  Python strings are Lean `String`s;
Python `int` arithmetic that may go negative (window offsets, document caps,
floor divisions) is `Int` with Python floor division `Int.fdiv`; Python list
slicing with possibly negative indices is modelled by `pySlice`; dynamically
typed document field values are modelled by the inductive `PyVal`; code that can
raise is modelled in `Except String`.  The `while` loop of `chunk_text` is given
explicit fuel, with `none` meaning the loop does not terminate within the fuel
(the fuel chosen in `chunk_text` is sufficient whenever the Python loop
terminates, since every terminating execution advances `start` by at least one
word per iteration).
-/

/-- ASCII whitespace characters recognized by Python `str.split()` / `str.strip()`
(model restricted to the ASCII whitespace class). -/
def isPySpace (c : Char) : Bool :=
  c = ' ' || c = '\t' || c = '\n' || c = '\r' || c = '\x0b' || c = '\x0c'

/-- Helper for `pySplit`: walks the character list holding the (reversed)
current token; emits a token at each whitespace run boundary, dropping empty
tokens exactly as Python `str.split()` with no arguments does. -/
def pySplitAux : List Char → List Char → List String
  | [], cur => if cur.isEmpty then [] else [String.mk cur.reverse]
  | c :: cs, cur =>
    if isPySpace c then
      if cur.isEmpty then pySplitAux cs []
      else String.mk cur.reverse :: pySplitAux cs []
    else pySplitAux cs (c :: cur)

/-- Model of Python `text.split()` (no separator argument): split on runs of
whitespace, never producing empty tokens. -/
def pySplit (s : String) : List String :=
  pySplitAux s.data []

/-- Model of Python `s.strip()`: drop leading and trailing whitespace. -/
def pyStrip (s : String) : String :=
  String.mk (((s.data.dropWhile isPySpace).reverse.dropWhile isPySpace).reverse)

/-- Model of Python `s.lower()` (ASCII range, which covers all strings the
script manipulates): map `A`–`Z` to `a`–`z`. -/
def pyLower (s : String) : String :=
  String.mk (s.data.map fun c =>
    if 65 ≤ c.toNat && c.toNat ≤ 90 then Char.ofNat (c.toNat + 32) else c)

/-- Model of Python `s.replace(".", "_")` (single-character replacement). -/
def pyReplaceDot (s : String) : String :=
  String.mk (s.data.map fun c => if c = '.' then '_' else c)

/-- Model of Python `s[:n]` for a string and nonnegative `n`. -/
def strTake (s : String) (n : Nat) : String :=
  String.mk (s.data.take n)

/-- Model of Python `s.split(",")[0]`: the characters before the first comma
(the whole string when no comma occurs). -/
def beforeComma (s : String) : String :=
  String.mk (s.data.takeWhile (· ≠ ','))

/-- Helper for `natDigits`: accumulates decimal digits least-significant
first into `acc`; the fuel dominates the digit count so is never exhausted
when called from `natDigits`. -/
def natDigitsGo : Nat → Nat → List Char → List Char
  | 0, _, acc => acc
  | fuel + 1, n, acc =>
    if n < 10 then Char.ofNat (48 + n) :: acc
    else natDigitsGo fuel (n / 10) (Char.ofNat (48 + n % 10) :: acc)

/-- Decimal digit list of a natural number, most significant first. -/
def natDigits (n : Nat) : List Char :=
  natDigitsGo (n + 1) n []

/-- Decimal rendering of a natural number (Python `str` on a nonnegative int). -/
def natStr (n : Nat) : String :=
  String.mk (natDigits n)

/-- Model of Python `str()` on an `int`. -/
def intStr (n : Int) : String :=
  if n < 0 then "-" ++ natStr (-n).toNat else natStr n.toNat

/-- Model of Python `" ".join(words)`. -/
def joinSpace : List String → String
  | [] => ""
  | [w] => w
  | w :: ws => w ++ " " ++ joinSpace ws

/-- Normalization of a Python slice endpoint against a list of length `n`:
negative indices count from the end, and the result is clamped to `[0, n]`. -/
def pyIndex (n : Nat) (i : Int) : Nat :=
  if i < 0 then ((n : Int) + i).toNat else min i.toNat n

/-- Model of Python list slicing `xs[a:b]` with `int` endpoints. -/
def pySlice {α : Type} (xs : List α) (a b : Int) : List α :=
  let a' := pyIndex xs.length a
  let b' := pyIndex xs.length b
  (xs.drop a').take (b' - a')

/-- The `while start < len(words)` loop of `chunk_text`
(prepare_huggingface.py, lines 117-129), with explicit fuel.  Each iteration
emits the window `words[start : start + chunk_size]`, advances `start` by
`chunk_size - overlap`, and breaks once `len(words) - start < overlap`.
`none` means the fuel was exhausted, i.e. the Python loop does not terminate
within that many iterations. -/
def chunkLoop (words : List String) (chunk_size overlap : Int) :
    Nat → Int → List (String × Int × Int) → Option (List (String × Int × Int))
  | 0, _, _ => none
  | fuel + 1, start, acc =>
    if start < (words.length : Int) then
      let e : Int := min (start + chunk_size) (words.length : Int)
      let chunk_words := pySlice words start e
      let acc' := acc ++ [(joinSpace chunk_words, start, e)]
      let start' := start + (chunk_size - overlap)
      if (words.length : Int) - start' < overlap then some acc'
      else chunkLoop words chunk_size overlap fuel start' acc'
    else some acc

/-- Model of `chunk_text(text, chunk_size, overlap)`
(prepare_huggingface.py, lines 104-131): split into words; a document of at
most `chunk_size` words is one whole-document span `(text, 0, len(words))`;
otherwise run the windowing loop.  The fuel `len(words) + 1` is enough for
every terminating run of the Python loop. -/
def chunk_text (text : String) (chunk_size : Int := 200) (overlap : Int := 50) :
    Option (List (String × Int × Int)) :=
  let words := pySplit text
  if (words.length : Int) ≤ chunk_size then some [(text, 0, (words.length : Int))]
  else chunkLoop words chunk_size overlap (words.length + 1) 0 []

theorem sanity_pySplit : pySplit "  a bc  d " = ["a", "bc", "d"] := by decide

theorem sanity_chunk_small :
    chunk_text "a b c" 200 50 = some [("a b c", 0, 3)] := by decide

/-! ## Python values and documents -/

/-- Dynamically typed Python values occurring as document fields in the
script: strings, ints, lists, and `None`.  (These are the shapes the script's
`isinstance` dispatch in `extract_topic` distinguishes; any other shape falls
into the final `str(topic)` branch together with `None`.) -/
inductive PyVal : Type where
  | str (s : String)
  | int (n : Int)
  | list (xs : List PyVal)
  | pyNone

mutual
/-- Structural equality on `PyVal`, the model of Python `==` used for dict
keys. -/
def PyVal.beq : PyVal → PyVal → Bool
  | .str a, .str b => a == b
  | .int a, .int b => a == b
  | .list a, .list b => PyVal.beqList a b
  | .pyNone, .pyNone => true
  | _, _ => false
def PyVal.beqList : List PyVal → List PyVal → Bool
  | [], [] => true
  | a :: as, b :: bs => PyVal.beq a b && PyVal.beqList as bs
  | _, _ => false
end

/-- Python truthiness of the modelled values (`if title:` etc.). -/
def PyVal.truthy : PyVal → Bool
  | .str s => !(s == "")
  | .int n => !(n == 0)
  | .list xs => !xs.isEmpty
  | .pyNone => false

/-- Python hashability: everything here but lists (dict keys raise
`TypeError` on a list). -/
def PyVal.hashable : PyVal → Bool
  | .list _ => false
  | _ => true

mutual
/-- Model of Python `str()` / `repr()` on the modelled values. -/
def PyVal.pyStr : PyVal → String
  | .str s => s
  | .int n => intStr n
  | .pyNone => "None"
  | .list xs => "[" ++ PyVal.reprList xs ++ "]"
def PyVal.pyRepr : PyVal → String
  | .str s => "'" ++ s ++ "'"
  | .int n => intStr n
  | .pyNone => "None"
  | .list xs => "[" ++ PyVal.reprList xs ++ "]"
def PyVal.reprList : List PyVal → String
  | [] => ""
  | [x] => PyVal.pyRepr x
  | x :: xs => PyVal.pyRepr x ++ ", " ++ PyVal.reprList xs
end

/-- A raw document from a source stream: a string-keyed field mapping. -/
def Doc : Type := List (String × PyVal)

/-- Model of `doc[k]` lookup / `k in doc` membership. -/
def docGet (doc : Doc) (k : String) : Option PyVal :=
  (doc.find? (fun p => p.1 == k)).map (·.2)

/-- Model of `doc.get(k, d)`. -/
def docGetD (doc : Doc) (k : String) (d : PyVal) : PyVal :=
  (docGet doc k).getD d

/-! ## Source descriptors -/

/-- Model of the `DatasetConfig` dataclass (prepare_huggingface.py, lines
41-56).  The unused `field_transforms` dict is omitted. -/
structure DatasetConfig where
  name : String
  hf_path : String
  hf_subset : Option String := none
  split : String := "train"
  text_field : String := "text"
  title_field : Option String := none
  topic_field : Option String := none
  max_docs : Int := 5000
  min_words : Nat := 50
  trust_remote_code : Bool := false
deriving DecidableEq

/-- The four static source descriptors `DATASET_CONFIGS`
(prepare_huggingface.py, lines 60-101). -/
def DATASET_CONFIGS : List DatasetConfig :=
  [ { name := "arxiv", hf_path := "ccdv/arxiv-classification",
      text_field := "text", title_field := some "title",
      topic_field := some "label", max_docs := 5000, min_words := 50 },
    { name := "code", hf_path := "code_search_net", hf_subset := some "python",
      text_field := "func_documentation_string", title_field := some "func_name",
      topic_field := some "language", max_docs := 5000, min_words := 20,
      trust_remote_code := true },
    { name := "stackoverflow", hf_path := "pacovaldez/stackoverflow-questions",
      text_field := "body", title_field := some "title",
      topic_field := some "tags", max_docs := 5000, min_words := 30 },
    { name := "wikipedia", hf_path := "wikimedia/wikipedia",
      hf_subset := some "20231101.en", text_field := "text",
      title_field := some "title", topic_field := none,
      max_docs := 5000, min_words := 100, trust_remote_code := true } ]

/-! ## Topic extraction -/

/-- The title-fallback tail of `extract_topic` (prepare_huggingface.py, lines
161-167): first whitespace token of a truthy title, lowercased, truncated to
20 characters; `"{name}_general"` otherwise.  `title.split()` on a non-string
raises `AttributeError`; `[0]` on a whitespace-only title raises
`IndexError`. -/
def extractTopicTitle (config : DatasetConfig) (doc : Doc) : Except String PyVal :=
  match config.title_field with
  | some tf =>
    if tf ≠ "" then
      match docGet doc tf with
      | some title =>
        if title.truthy then
          match title with
          | .str s =>
            match pySplit s with
            | [] => .error "IndexError: list index out of range"
            | w :: _ => .ok (.str (strTake (pyLower w) 20))
          | _ => .error "AttributeError: object has no attribute split"
        else .ok (.str (config.name ++ "_general"))
      | none => .ok (.str (config.name ++ "_general"))
    else .ok (.str (config.name ++ "_general"))
  | none => .ok (.str (config.name ++ "_general"))

/-- Model of `extract_topic(config, doc)` (prepare_huggingface.py, lines
142-167).  A list value yields its raw first element (`"unknown"` when
empty); a string with a comma yields the trimmed lowercased head tag; a plain
string is lowercased with `.` replaced by `_`; an int becomes `"label_{n}"`;
anything else is `str()`-ified; with no usable topic field, fall back to the
title or to `"{name}_general"`. -/
def extract_topic (config : DatasetConfig) (doc : Doc) : Except String PyVal :=
  match config.topic_field with
  | some tf =>
    if tf ≠ "" then
      match docGet doc tf with
      | some topic =>
        match topic with
        | .list xs =>
          match xs with
          | [] => .ok (.str "unknown")
          | x :: _ => .ok x
        | .str s =>
          if s.data.any (· = ',') then .ok (.str (pyLower (pyStrip (beforeComma s))))
          else .ok (.str (pyReplaceDot (pyLower s)))
        | .int n => .ok (.str ("label_" ++ intStr n))
        | v => .ok (.str v.pyStr)
      | none => extractTopicTitle config doc
    else extractTopicTitle config doc
  | none => extractTopicTitle config doc

theorem sanity_extract_comma :
    extract_topic { name := "stackoverflow", hf_path := "p", topic_field := some "tags" }
      [("tags", .str "python,flask")] = .ok (.str "python") := rfl

theorem sanity_extract_dots :
    extract_topic { name := "arxiv", hf_path := "p", topic_field := some "label" }
      [("label", .str "cs.AI")] = .ok (.str "cs_ai") := rfl

/-! ## SHA-256 (model of `hashlib.sha256`, FIPS 180-4) and chunk identifiers -/

namespace SHA256

/-- 32-bit rotate right. -/
def rotr (n x : Nat) : Nat := ((x >>> n) ||| (x <<< (32 - n))) % 4294967296

/-- 32-bit addition. -/
def add32 (a b : Nat) : Nat := (a + b) % 4294967296

def smallSigma0 (x : Nat) : Nat := (rotr 7 x) ^^^ (rotr 18 x) ^^^ (x >>> 3)

def smallSigma1 (x : Nat) : Nat := (rotr 17 x) ^^^ (rotr 19 x) ^^^ (x >>> 10)

def bigSigma0 (x : Nat) : Nat := (rotr 2 x) ^^^ (rotr 13 x) ^^^ (rotr 22 x)

def bigSigma1 (x : Nat) : Nat := (rotr 6 x) ^^^ (rotr 11 x) ^^^ (rotr 25 x)

def ch (x y z : Nat) : Nat := (x &&& y) ^^^ ((x ^^^ 4294967295) &&& z)

def maj (x y z : Nat) : Nat := (x &&& y) ^^^ (x &&& z) ^^^ (y &&& z)

/-- The 64 round constants of FIPS 180-4 (decimal). -/
def K : List Nat :=
  [1116352408, 1899447441, 3049323471, 3921009573, 961987163, 1508970993,
   2453635748, 2870763221, 3624381080, 310598401, 607225278, 1426881987,
   1925078388, 2162078206, 2614888103, 3248222580, 3835390401, 4022224774,
   264347078, 604807628, 770255983, 1249150122, 1555081692, 1996064986,
   2554220882, 2821834349, 2952996808, 3210313671, 3336571891, 3584528711,
   113926993, 338241895, 666307205, 773529912, 1294757372, 1396182291,
   1695183700, 1986661051, 2177026350, 2456956037, 2730485921, 2820302411,
   3259730800, 3345764771, 3516065817, 3600352804, 4094571909, 275423344,
   430227734, 506948616, 659060556, 883997877, 958139571, 1322822218,
   1537002063, 1747873779, 1955562222, 2024104815, 2227730452, 2361852424,
   2428436474, 2756734187, 3204031479, 3329325298]

/-- Initial hash value of FIPS 180-4 (decimal). -/
def H0 : List Nat :=
  [1779033703, 3144134277, 1013904242, 2773480762,
   1359893119, 2600822924, 528734635, 1541459225]

/-- Pad a byte message: append `0x80`, zero bytes to 56 mod 64, then the
bit length as 8 big-endian bytes. -/
def padMessage (msg : List Nat) : List Nat :=
  let bitLen := msg.length * 8
  let zeros := (119 - msg.length % 64) % 64
  msg ++ [0x80] ++ List.replicate zeros 0 ++
    ((List.range 8).map fun i => bitLen >>> (8 * (7 - i)) % 256)

/-- Helper for `toBlocks` with fuel; each step drops 64 bytes, so fuel
`length + 1` always suffices. -/
def toBlocksGo : Nat → List Nat → List (List Nat)
  | 0, _ => []
  | _ + 1, [] => []
  | fuel + 1, x :: xs => (x :: xs).take 64 :: toBlocksGo fuel ((x :: xs).drop 64)

/-- Split a byte list into 64-byte blocks. -/
def toBlocks (l : List Nat) : List (List Nat) :=
  toBlocksGo (l.length + 1) l

/-- Big-endian 32-bit words of a block. -/
def toWords : List Nat → List Nat
  | b0 :: b1 :: b2 :: b3 :: rest =>
    (((b0 * 256 + b1) * 256 + b2) * 256 + b3) :: toWords rest
  | _ => []

/-- Extend the 16 message-schedule words to 64. -/
def buildSchedule (w16 : List Nat) : List Nat :=
  (List.range 48).foldl
    (fun w _ =>
      let i := w.length
      w ++ [add32 (add32 (smallSigma1 (w.getD (i - 2) 0)) (w.getD (i - 7) 0))
              (add32 (smallSigma0 (w.getD (i - 15) 0)) (w.getD (i - 16) 0))])
    w16

/-- One compression round: the working state is the 8-word list
`[a, b, c, d, e, f, g, h]`. -/
def compressStep (state : List Nat) (kw : Nat × Nat) : List Nat :=
  let a := state.getD 0 0
  let b := state.getD 1 0
  let c := state.getD 2 0
  let d := state.getD 3 0
  let e := state.getD 4 0
  let f := state.getD 5 0
  let g := state.getD 6 0
  let h := state.getD 7 0
  let t1 := add32 h (add32 (bigSigma1 e) (add32 (ch e f g) (add32 kw.1 kw.2)))
  let t2 := add32 (bigSigma0 a) (maj a b c)
  [add32 t1 t2, a, b, c, add32 d t1, e, f, g]

/-- Compress one 64-byte block into the running hash. -/
def compressBlock (H : List Nat) (block : List Nat) : List Nat :=
  let w := buildSchedule (toWords block)
  let st := (K.zip w).foldl compressStep H
  (H.zip st).map fun p => add32 p.1 p.2

/-- SHA-256 digest (32 bytes) of a byte message. -/
def sha256Bytes (msg : List Nat) : List Nat :=
  let H := (toBlocks (padMessage msg)).foldl compressBlock H0
  (H.map fun h => [h >>> 24 % 256, h >>> 16 % 256, h >>> 8 % 256, h % 256]).flatten

end SHA256

/-- UTF-8 encoding of one character (model of Python `str.encode()`). -/
def utf8Char (c : Char) : List Nat :=
  let n := c.toNat
  if n < 128 then [n]
  else if n < 2048 then [192 + n / 64, 128 + n % 64]
  else if n < 65536 then [224 + n / 4096, 128 + n / 64 % 64, 128 + n % 64]
  else [240 + n / 262144, 128 + n / 4096 % 64, 128 + n / 64 % 64, 128 + n % 64]

/-- UTF-8 byte encoding of a string. -/
def utf8Encode (s : String) : List Nat :=
  (s.data.map utf8Char).flatten

/-- Lowercase hexadecimal digit for `k < 16`. -/
def hexDigitChar (k : Nat) : Char :=
  if k < 10 then Char.ofNat (48 + k) else Char.ofNat (87 + k)

/-- Two lowercase hex characters of one byte (model of `bytes.hex()` per
byte). -/
def hexByteChars (b : Nat) : List Char :=
  [hexDigitChar (b / 16 % 16), hexDigitChar (b % 16)]

/-- Hex characters of a byte list. -/
def hexChars (bs : List Nat) : List Char :=
  (bs.map hexByteChars).flatten

/-- Model of Python `bytes.hex()`: lowercase hex string. -/
def hexStr (bs : List Nat) : String :=
  String.mk (hexChars bs)

/-- Model of `generate_chunk_id(doc_id, chunk_idx, source)`
(prepare_huggingface.py, lines 134-139): SHA-256 of
`"{source}:{doc_id}:{chunk_idx}"`, first 16 digest bytes, formatted as the
hex of the byte groups `[:4]`, `[4:6]`, `[6:8]`, `[8:10]`, `[10:16]` joined
by dashes. -/
def generate_chunk_id (doc_id : String) (chunk_idx : Nat) (source : String) : String :=
  let content := source ++ ":" ++ doc_id ++ ":" ++ natStr chunk_idx
  let hash_bytes := (SHA256.sha256Bytes (utf8Encode content)).take 16
  hexStr (pySlice hash_bytes 0 4) ++ "-" ++ hexStr (pySlice hash_bytes 4 6) ++ "-" ++
    hexStr (pySlice hash_bytes 6 8) ++ "-" ++ hexStr (pySlice hash_bytes 8 10) ++ "-" ++
    hexStr (pySlice hash_bytes 10 16)

/-- Modelled from the spec: `identifier(source, document_id, chunk_index)` is
the first 16 bytes of the SHA-256 digest of `"{source}:{document_id}:{chunk_index}"`,
rendered as 32 lowercase hex digits grouped 8-4-4-4-12 with dashes.  Stated
from the spec's words for comparison with `generate_chunk_id` above. -/
def spec_identifier (source document_id : String) (chunk_index : Nat) : String :=
  let digest := SHA256.sha256Bytes
    (utf8Encode (source ++ ":" ++ document_id ++ ":" ++ natStr chunk_index))
  let h := hexChars (digest.take 16)
  String.mk (h.take 8) ++ "-" ++ String.mk ((h.drop 8).take 4) ++ "-" ++
    String.mk ((h.drop 12).take 4) ++ "-" ++ String.mk ((h.drop 16).take 4) ++ "-" ++
    String.mk ((h.drop 20).take 12)

theorem sanity_sha256_abc :
    SHA256.sha256Bytes (utf8Encode "abc") =
      [0xba, 0x78, 0x16, 0xbf, 0x8f, 0x01, 0xcf, 0xea,
       0x41, 0x41, 0x40, 0xde, 0x5d, 0xae, 0x22, 0x23,
       0xb0, 0x03, 0x61, 0xa3, 0x96, 0x17, 0x7a, 0x9c,
       0xb4, 0x10, 0xff, 0x61, 0xf2, 0x00, 0x15, 0xad] := by decide

theorem sanity_sha256_empty :
    hexStr (SHA256.sha256Bytes []) =
      "e3b0c44298fc1c149afbf4c8996fb92427ae41e4649b934ca495991b7852b855" := by decide

/-! ## Chunk records, topic counts, document processing -/

/-- One emitted chunk record (prepare_huggingface.py, lines 239-250).
`topic_hint` is a raw Python value because `extract_topic` can return a
non-string (the first element of a list-valued topic field). -/
structure ChunkRecord where
  id : String
  doc_id : String
  title : String
  chunk_idx : Nat
  text : String
  word_count : Nat
  start_word : Int
  end_word : Int
  topic_hint : PyVal
  source_dataset : String

/-- The topic-count dict: association list in insertion order, as a Python
dict iterates. -/
abbrev Topics : Type := List (PyVal × Nat)

/-- Model of `topic_counts.get(topic, 0)`. -/
def topicGet (tc : Topics) (k : PyVal) : Nat :=
  match tc.find? (fun p => PyVal.beq p.1 k) with
  | some p => p.2
  | none => 0

/-- Model of `topic_counts[topic] = v`: update in place, else append. -/
def topicSet (tc : Topics) (k : PyVal) (v : Nat) : Topics :=
  if tc.any (fun p => PyVal.beq p.1 k) then
    tc.map (fun p => if PyVal.beq p.1 k then (p.1, v) else p)
  else tc ++ [(k, v)]

/-- Model of `topic_counts[topic] = topic_counts.get(topic, 0) + 1`
(prepare_huggingface.py, line 231); raises `TypeError` on an unhashable
(list) key exactly as a Python dict does. -/
def topicIncr (tc : Topics) (k : PyVal) : Except String Topics :=
  if k.hashable then .ok (topicSet tc k (topicGet tc k + 1))
  else .error "TypeError: unhashable type"

/-- Per-source statistics dict (prepare_huggingface.py, lines 179-185). -/
structure DsStats where
  documents : Nat := 0
  chunks : Nat := 0
  words : Nat := 0
  skipped_short : Nat := 0
  skipped_empty : Nat := 0

/-- The `for i, doc in enumerate(dataset)` loop of `process_dataset`
(prepare_huggingface.py, lines 204-258): stop at the (possibly quota-shrunk)
`max_docs`; skip documents with a missing/falsy/non-string body
(`skipped_empty`) or with fewer than `min_words` words (`skipped_short`);
otherwise count the topic, chunk the stripped text, and append one record
per chunk. -/
def procDocs (config : DatasetConfig) (chunk_size overlap : Int) :
    List Doc → Nat → DsStats → List ChunkRecord → Topics →
    Except String (DsStats × List ChunkRecord × Topics)
  | [], _, stats, out, tc => .ok (stats, out, tc)
  | doc :: rest, i, stats, out, tc =>
    if config.max_docs ≤ (i : Int) then .ok (stats, out, tc)
    else
      match docGetD doc config.text_field (.str "") with
      | .str rawText =>
        if rawText = "" then
          procDocs config chunk_size overlap rest (i + 1)
            { stats with skipped_empty := stats.skipped_empty + 1 } out tc
        else
          let text := pyStrip rawText
          let words := pySplit text
          if words.length < config.min_words then
            procDocs config chunk_size overlap rest (i + 1)
              { stats with skipped_short := stats.skipped_short + 1 } out tc
          else
            let dflt : PyVal := .str (config.name ++ "_" ++ natStr i)
            let tv : PyVal :=
              match config.title_field with
              | some tf => docGetD doc tf dflt
              | none => dflt
            let title := if tv.truthy then tv else dflt
            let doc_id := config.name ++ "_" ++ natStr i
            match extract_topic config doc with
            | .error e => .error e
            | .ok topic =>
              match topicIncr tc topic with
              | .error e => .error e
              | .ok tc2 =>
                match chunk_text text chunk_size overlap with
                | none => .error "chunk_text does not terminate"
                | some chunks =>
                  let records := chunks.enum.map fun p =>
                    ({ id := generate_chunk_id doc_id p.1 config.name,
                       doc_id := doc_id,
                       title := strTake title.pyStr 200,
                       chunk_idx := p.1,
                       text := p.2.1,
                       word_count := (pySplit p.2.1).length,
                       start_word := p.2.2.1,
                       end_word := p.2.2.2,
                       topic_hint := topic,
                       source_dataset := config.name } : ChunkRecord)
                  let stats2 :=
                    { stats with
                      documents := stats.documents + 1,
                      chunks := stats.chunks + records.length,
                      words := stats.words + records.foldl (fun a r => a + r.word_count) 0 }
                  procDocs config chunk_size overlap rest (i + 1) stats2 (out ++ records) tc2
      | _ =>
        procDocs config chunk_size overlap rest (i + 1)
          { stats with skipped_empty := stats.skipped_empty + 1 } out tc

/-- Model of `process_dataset` (prepare_huggingface.py, lines 170-258).  The
remote stream is `none` when `load_dataset` raised, in which case the
function returns zero statistics and leaves the accumulators unchanged
(lines 200-202); otherwise it runs the document loop. -/
def process_dataset (config : DatasetConfig) (stream : Option (List Doc))
    (chunk_size overlap : Int) (output_chunks : List ChunkRecord)
    (topic_counts : Topics) :
    Except String (DsStats × List ChunkRecord × Topics) :=
  match stream with
  | none => .ok ({}, output_chunks, topic_counts)
  | some docs => procDocs config chunk_size overlap docs 0 {} output_chunks topic_counts

/-! ## Checkpoint store -/

/-- Checkpoint sidecar contents (prepare_huggingface.py, lines 401-404). -/
structure CheckpointMeta where
  processed_datasets : List String := []
  topic_counts : Topics := []

/-- An on-disk artifact either parses to a value or is corrupt (unparseable
by `json.loads`). -/
inductive FileVal (α : Type) : Type where
  | valid (a : α)
  | corrupt

/-- The two checkpoint artifacts; `none` models a missing file.  The JSON
(de)serialization performed by `json.dumps`/`json.loads` on well-formed
artifacts is modelled as the identity, with `corrupt` standing for any file
content on which `json.loads` raises. -/
structure Disk where
  checkpoint : Option (FileVal (List ChunkRecord)) := none
  checkpoint_meta : Option (FileVal CheckpointMeta) := none

/-- Model of `json.loads`/`json.load` applied to one artifact: the parsed
value, or a raised `JSONDecodeError`. -/
def parseFile {α : Type} : FileVal α → Except String α
  | .valid a => .ok a
  | .corrupt => .error "json.decoder.JSONDecodeError"

/-- Model of `save_checkpoint` (prepare_huggingface.py, lines 261-276):
rewrite both artifacts with the full current state. -/
def save_checkpoint (chunks : List ChunkRecord) (meta : CheckpointMeta) : Disk :=
  { checkpoint := some (.valid chunks), checkpoint_meta := some (.valid meta) }

/-- Model of `load_checkpoint` (prepare_huggingface.py, lines 279-296): if
either artifact is missing, return the empty state; otherwise parse the chunk
lines and then the sidecar, propagating any parse exception. -/
def load_checkpoint (d : Disk) :
    Except String (List ChunkRecord × CheckpointMeta × List String) :=
  match d.checkpoint, d.checkpoint_meta with
  | some cf, some mf =>
    match parseFile cf with
    | .error e => .error e
    | .ok chunks =>
      match parseFile mf with
      | .error e => .error e
      | .ok metadata => .ok (chunks, metadata, metadata.processed_datasets)
  | _, _ => .ok ([], {}, [])

/-! ## Quota allocation and the ingestion loop -/

/-- The in-place quota adjustment `config.max_docs = min(config.max_docs,
per_dataset_limit // 2)` applied to one descriptor (prepare_huggingface.py,
lines 354-355). -/
def alloc1 (c : DatasetConfig) (per_dataset_limit : Int) : DatasetConfig :=
  { c with max_docs := min c.max_docs (per_dataset_limit.fdiv 2) }

/-- The quota-allocation pass over the remaining descriptors
(prepare_huggingface.py, lines 353-355). -/
def allocate (configs : List DatasetConfig) (per_dataset_limit : Int) :
    List DatasetConfig :=
  configs.map (alloc1 · per_dataset_limit)

/-- Mutable run state threaded through the orchestrator loop: the chunk and
topic accumulators, the completed-source set, statistics, the current disk
contents, and the trace of checkpoints written (one per completed source). -/
structure RunState where
  all_chunks : List ChunkRecord
  topic_counts : Topics
  processed_datasets : List String
  dataset_stats : List (String × DsStats)
  source_datasets : List String
  total_documents : Nat
  total_words : Nat
  disk : Disk
  checkpointTrace : List Disk

/-- The `for config in remaining_configs` loop of
`prepare_huggingface_benchmark` (prepare_huggingface.py, lines 378-407):
break as soon as the accumulated chunk total has reached `max_chunks`;
otherwise process the source, fold its statistics in, mark it completed, and
save a checkpoint. -/
def ingestLoop (max_chunks chunk_size overlap : Int) :
    List (DatasetConfig × Option (List Doc)) → RunState → Except String RunState
  | [], st => .ok st
  | (config, stream) :: rest, st =>
    if max_chunks ≤ (st.all_chunks.length : Int) then .ok st
    else
      match process_dataset config stream chunk_size overlap st.all_chunks st.topic_counts with
      | .error e => .error e
      | .ok (dstats, chunks2, topics2) =>
        let processed2 := st.processed_datasets ++ [config.name]
        let meta : CheckpointMeta :=
          { processed_datasets := processed2, topic_counts := topics2 }
        let disk2 := save_checkpoint chunks2 meta
        ingestLoop max_chunks chunk_size overlap rest
          { all_chunks := chunks2,
            topic_counts := topics2,
            processed_datasets := processed2,
            dataset_stats := st.dataset_stats ++ [(config.name, dstats)],
            source_datasets := st.source_datasets ++ [config.name],
            total_documents := st.total_documents + dstats.documents,
            total_words := st.total_words + dstats.words,
            disk := disk2,
            checkpointTrace := st.checkpointTrace ++ [disk2] }

/-- Model of `prepare_huggingface_benchmark` (prepare_huggingface.py, lines
299-456) up to the end of the ingestion loop: filter the configured sources
by the explicit selection (exiting when a non-empty selection matches
nothing), load the checkpoint when resuming, drop already-completed sources,
derive the per-source runtime caps from the remaining budget, and run the
ingestion loop.  Each source is paired with its remote stream (`none` when
`load_dataset` raises for it).  The final statistics sort/write and the
checkpoint removal (lines 409-432) are modelled by `finalizeEvents` below. -/
def prepare_huggingface_benchmark
    (sources : List (DatasetConfig × Option (List Doc)))
    (max_chunks : Int := 20000) (chunk_size : Int := 200) (overlap : Int := 50)
    (datasets : Option (List String) := none) (resume : Bool := true)
    (disk : Disk := {}) : Except String RunState :=
  match (match datasets with
         | some ds =>
           if ds.isEmpty then .ok sources
           else
             let cs := sources.filter (fun p => ds.contains p.1.name)
             if cs.isEmpty then Except.error "sys.exit(1): no matching datasets"
             else .ok cs
         | none => .ok sources :
         Except String (List (DatasetConfig × Option (List Doc)))) with
  | .error e => .error e
  | .ok configs =>
    match (if resume then load_checkpoint disk else .ok ([], {}, [])) with
    | .error e => .error e
    | .ok (all_chunks, checkpoint_meta, processed_datasets) =>
      let topic_counts : Topics :=
        if all_chunks.isEmpty then [] else checkpoint_meta.topic_counts
      let remaining := configs.filter (fun p => !(processed_datasets.contains p.1.name))
      let adjusted :=
        if remaining.isEmpty then remaining
        else
          let chunks_remaining : Int := max_chunks - (all_chunks.length : Int)
          let per_dataset_limit : Int := chunks_remaining.fdiv (remaining.length : Int)
          remaining.map (fun p => (alloc1 p.1 per_dataset_limit, p.2))
      let st0 : RunState :=
        { all_chunks := all_chunks,
          topic_counts := topic_counts,
          processed_datasets := processed_datasets,
          dataset_stats := [],
          source_datasets := [],
          total_documents := 0,
          total_words := all_chunks.foldl (fun a c => a + c.word_count) 0,
          disk := disk,
          checkpointTrace := [] }
      ingestLoop max_chunks chunk_size overlap adjusted st0

/-! ## Finalize, as an event trace -/

/-- The externally visible file operations of the finalize phase. -/
inductive FinalizeEvent : Type where
  | writeFinalChunks
  | writeFinalMetadata
  | unlinkCheckpoint
  | unlinkCheckpointMeta
deriving DecidableEq

/-- `e` is a checkpoint-artifact deletion. -/
def FinalizeEvent.isDelete : FinalizeEvent → Bool
  | .unlinkCheckpoint => true
  | .unlinkCheckpointMeta => true
  | _ => false

/-- `e` is a final-output write. -/
def FinalizeEvent.isFinalWrite : FinalizeEvent → Bool
  | .writeFinalChunks => true
  | .writeFinalMetadata => true
  | _ => false

/-- The finalize phase of `prepare_huggingface_benchmark` in program order
(prepare_huggingface.py, lines 414-432): write `chunks.jsonl`, write
`metadata.json`, then unlink each checkpoint artifact that exists. -/
def finalizeEvents (checkpointExists checkpointMetaExists : Bool) :
    List FinalizeEvent :=
  [FinalizeEvent.writeFinalChunks, FinalizeEvent.writeFinalMetadata] ++
    (if checkpointExists then [FinalizeEvent.unlinkCheckpoint] else []) ++
    (if checkpointMetaExists then [FinalizeEvent.unlinkCheckpointMeta] else [])

/-- Extract the success value of an `Except`, with an explicit fallback. -/
def getOk {α : Type} (e : Except String α) (d : α) : α :=
  match e with
  | .ok a => a
  | .error _ => d

/-- The run state with nothing accumulated and an empty disk. -/
def emptyRunState : RunState :=
  { all_chunks := [], topic_counts := [], processed_datasets := [],
    dataset_stats := [], source_datasets := [], total_documents := 0,
    total_words := 0, disk := {}, checkpointTrace := [] }

theorem sanity_prepare_eval :
    (prepare_huggingface_benchmark
        [({ name := "s", hf_path := "p", text_field := "text",
            topic_field := some "t", max_docs := 5000, min_words := 1 },
          some [[("text", .str (joinSpace (List.replicate 10 "w"))), ("t", .str "x")]])]
        2 2 1 none true {}).map (fun st => st.all_chunks.length) =
      .ok 10 := rfl

/-! ## Word-splitting lemmas -/

/-- `(a ++ b).data = a.data ++ b.data` for strings. -/
theorem data_append (a b : String) : (a ++ b).data = a.data ++ b.data := rfl

theorem pySplitAux_nil (cur : List Char) :
    pySplitAux [] cur = if cur.isEmpty then [] else [String.mk cur.reverse] := rfl

theorem pySplitAux_cons (c : Char) (cs cur : List Char) :
    pySplitAux (c :: cs) cur =
      if isPySpace c then
        if cur.isEmpty then pySplitAux cs []
        else String.mk cur.reverse :: pySplitAux cs []
      else pySplitAux cs (c :: cur) := rfl

theorem joinSpace_cons_cons (w w' : String) (ws : List String) :
    joinSpace (w :: w' :: ws) = w ++ " " ++ joinSpace (w' :: ws) := rfl

/-- Every token produced by `pySplitAux` is non-empty and whitespace-free,
provided the pending partial token is whitespace-free. -/
theorem pySplitAux_tokens (cs : List Char) :
    ∀ (cur : List Char), (∀ c ∈ cur, isPySpace c = false) →
      ∀ w ∈ pySplitAux cs cur, w.data ≠ [] ∧ ∀ c ∈ w.data, isPySpace c = false := by
  induction cs with
  | nil =>
    intro cur hcur w hw
    rw [pySplitAux_nil] at hw
    by_cases hemp : cur.isEmpty
    · simp [hemp] at hw
    · rw [if_neg hemp] at hw
      simp only [List.mem_singleton] at hw
      subst hw
      refine ⟨?_, ?_⟩
      · simp only [List.isEmpty_iff] at hemp
        simpa using hemp
      · intro c hc
        exact hcur c (List.mem_reverse.mp hc)
  | cons c cs ih =>
    intro cur hcur w hw
    rw [pySplitAux_cons] at hw
    by_cases hsp : isPySpace c
    · rw [if_pos hsp] at hw
      by_cases hemp : cur.isEmpty
      · rw [if_pos hemp] at hw
        exact ih [] (by simp) w hw
      · rw [if_neg hemp] at hw
        rcases List.mem_cons.mp hw with h | h
        · subst h
          refine ⟨?_, ?_⟩
          · simp only [List.isEmpty_iff] at hemp
            simpa using hemp
          · intro d hd
            exact hcur d (List.mem_reverse.mp hd)
        · exact ih [] (by simp) w h
    · rw [if_neg hsp] at hw
      refine ih (c :: cur) ?_ w hw
      intro d hd
      rcases List.mem_cons.mp hd with h | h
      · subst h; simpa using hsp
      · exact hcur d h

/-- Every token of `pySplit` is non-empty and whitespace-free. -/
theorem pySplit_tokens (s : String) :
    ∀ w ∈ pySplit s, w.data ≠ [] ∧ ∀ c ∈ w.data, isPySpace c = false :=
  pySplitAux_tokens s.data [] (by simp)

/-- Scanning a whitespace-free prefix just accumulates it onto the pending
token (reversed). -/
theorem pySplitAux_accum (t : List Char) :
    ∀ (rest cur : List Char), (∀ c ∈ t, isPySpace c = false) →
      pySplitAux (t ++ rest) cur = pySplitAux rest (t.reverse ++ cur) := by
  induction t with
  | nil => intro rest cur _; simp
  | cons c t ih =>
    intro rest cur ht
    have hc : isPySpace c = false := ht c (by simp)
    have hrest : ∀ d ∈ t, isPySpace d = false := fun d hd => ht d (by simp [hd])
    rw [List.cons_append, pySplitAux_cons, if_neg (by simp [hc]), ih rest (c :: cur) hrest]
    simp

/-- Splitting the space-join of non-empty whitespace-free words recovers
exactly those words. -/
theorem pySplit_joinSpace (ws : List String)
    (hws : ∀ w ∈ ws, w.data ≠ [] ∧ ∀ c ∈ w.data, isPySpace c = false) :
    pySplit (joinSpace ws) = ws := by
  induction ws with
  | nil => rfl
  | cons w ws ih =>
    rcases hws w (by simp) with ⟨hne, hfree⟩
    cases ws with
    | nil =>
      show pySplitAux (joinSpace [w]).data [] = [w]
      have hj : joinSpace [w] = w := rfl
      rw [hj, show w.data = w.data ++ [] by simp, pySplitAux_accum w.data [] [] hfree,
        pySplitAux_nil, if_neg (by simp [hne])]
      simp
    | cons w' ws' =>
      show pySplitAux (joinSpace (w :: w' :: ws')).data [] = w :: w' :: ws'
      rw [joinSpace_cons_cons, data_append, data_append,
        show (" " : String).data = [' '] from rfl, List.append_assoc]
      rw [pySplitAux_accum w.data _ [] hfree, List.singleton_append, pySplitAux_cons,
        if_pos (by decide), if_neg (by simp [hne])]
      have ihh := ih (fun x hx => hws x (by simp [hx]))
      simp only [List.append_nil, List.reverse_reverse]
      exact congrArg (String.mk w.data :: ·) ihh

/-! ## Chunker window lemmas -/

theorem chunkLoop_zero (words : List String) (cs ov start : Int)
    (acc : List (String × Int × Int)) :
    chunkLoop words cs ov 0 start acc = none := rfl

theorem chunkLoop_succ (words : List String) (cs ov : Int) (fuel : Nat)
    (start : Int) (acc : List (String × Int × Int)) :
    chunkLoop words cs ov (fuel + 1) start acc =
      if start < (words.length : Int) then
        let e : Int := min (start + cs) (words.length : Int)
        let acc' := acc ++ [(joinSpace (pySlice words start e), start, e)]
        let start' := start + (cs - ov)
        if (words.length : Int) - start' < ov then some acc'
        else chunkLoop words cs ov fuel start' acc'
      else some acc := rfl

/-- With a non-positive stride (`overlap >= chunk_size`) and a window start
at or left of the origin, the window loop never terminates: the start never
advances past the words and the break condition never fires. -/
theorem chunkLoop_stride_nonpos (words : List String) (cs ov : Int)
    (hcs : 0 < cs) (hstride : cs - ov ≤ 0) (hlen : cs < (words.length : Int)) :
    ∀ (fuel : Nat) (start : Int) (acc : List (String × Int × Int)),
      start ≤ 0 → chunkLoop words cs ov fuel start acc = none := by
  intro fuel
  induction fuel with
  | zero => intro start acc _; rfl
  | succ n ih =>
    intro start acc hstart
    rw [chunkLoop_succ, if_pos (by omega)]
    simp only
    rw [if_neg (by omega)]
    exact ih _ _ (by omega)

/-- Every window triple emitted by the loop satisfies the invariant: the
emitted text splits back into exactly `end - start` words.  Holds for a
positive stride with a non-negative start and whitespace-free source
words. -/
theorem chunkLoop_invariant (words : List String) (cs ov : Int)
    (hcs : 0 < cs) (hstride : 0 < cs - ov)
    (hwords : ∀ w ∈ words, w.data ≠ [] ∧ ∀ c ∈ w.data, isPySpace c = false) :
    ∀ (fuel : Nat) (start : Int) (acc l : List (String × Int × Int)),
      0 ≤ start →
      (∀ t ∈ acc, ((pySplit t.1).length : Int) = t.2.2 - t.2.1) →
      chunkLoop words cs ov fuel start acc = some l →
      ∀ t ∈ l, ((pySplit t.1).length : Int) = t.2.2 - t.2.1 := by
  intro fuel
  induction fuel with
  | zero => intro start acc l _ _ h; exact absurd h (by simp [chunkLoop_zero])
  | succ n ih =>
    intro start acc l hstart hacc h
    rw [chunkLoop_succ] at h
    by_cases hlt : start < (words.length : Int)
    · rw [if_pos hlt] at h
      simp only at h
      set e : Int := min (start + cs) (words.length : Int) with he
      have he0 : 0 ≤ e := by omega
      have hele : e ≤ (words.length : Int) := by omega
      have hse : start ≤ e := by omega
      have hslice : (pySlice words start e).length = e.toNat - start.toNat := by
        simp only [pySlice, pyIndex, if_neg (by omega : ¬ start < 0),
          if_neg (by omega : ¬ e < 0)]
        rw [List.length_take, List.length_drop]
        omega
      have hmem : ∀ w ∈ pySlice words start e, w ∈ words := by
        intro w hw
        simp only [pySlice] at hw
        exact List.mem_of_mem_drop (List.mem_of_mem_take hw)
      have hgood : ((pySplit (joinSpace (pySlice words start e))).length : Int) = e - start := by
        rw [pySplit_joinSpace _ (fun w hw => hwords w (hmem w hw))]
        rw [hslice]
        omega
      by_cases hbrk : (words.length : Int) - (start + (cs - ov)) < ov
      · rw [if_pos hbrk] at h
        cases h
        intro t ht
        rcases List.mem_append.mp ht with h1 | h1
        · exact hacc t h1
        · simp only [List.mem_singleton] at h1
          subst h1
          exact hgood
      · rw [if_neg hbrk] at h
        refine ih _ _ _ (by omega) ?_ h
        intro t ht
        rcases List.mem_append.mp ht with h1 | h1
        · exact hacc t h1
        · simp only [List.mem_singleton] at h1
          subst h1
          exact hgood
    · rw [if_neg hlt] at h
      cases h
      exact hacc

/-- For positive `chunk_size`, whenever `chunk_text` terminates, every
emitted triple's text splits back into exactly `end - start` words. -/
theorem chunk_text_invariant (text : String) (cs ov : Int) (l : List (String × Int × Int))
    (hcs : 0 < cs) (h : chunk_text text cs ov = some l) :
    ∀ t ∈ l, ((pySplit t.1).length : Int) = t.2.2 - t.2.1 := by
  unfold chunk_text at h
  simp only at h
  by_cases hle : ((pySplit text).length : Int) ≤ cs
  · rw [if_pos hle] at h
    cases h
    intro t ht
    simp only [List.mem_singleton] at ht
    subst ht
    simp
  · rw [if_neg hle] at h
    by_cases hstride : 0 < cs - ov
    · exact chunkLoop_invariant (pySplit text) cs ov hcs hstride (pySplit_tokens text)
        _ 0 [] l (by omega) (by simp) h
    · have := chunkLoop_stride_nonpos (pySplit text) cs ov hcs (by omega) (by omega)
        ((pySplit text).length + 1) 0 [] (by omega)
      rw [this] at h
      exact absurd h (by simp)

/-! ## The chunk-record invariant through document processing -/

/-- The record-level invariant of claim C9: `word_count` is the number of
whitespace words of the chunk text, and `end_word - start_word` equals it. -/
def chunkInv (r : ChunkRecord) : Prop :=
  r.word_count = (pySplit r.text).length ∧
  r.end_word - r.start_word = (r.word_count : Int)

theorem procDocs_invariant (config : DatasetConfig) (cs ov : Int) (hcs : 0 < cs) :
    ∀ (docs : List Doc) (i : Nat) (stats : DsStats) (out : List ChunkRecord)
      (tc : Topics) (res : DsStats × List ChunkRecord × Topics),
      (∀ r ∈ out, chunkInv r) →
      procDocs config cs ov docs i stats out tc = .ok res →
      ∀ r ∈ res.2.1, chunkInv r := by
  intro docs
  induction docs with
  | nil =>
    intro i stats out tc res hout h
    simp only [procDocs, Except.ok.injEq] at h
    subst h
    exact hout
  | cons doc rest ih =>
    intro i stats out tc res hout h
    simp only [procDocs] at h
    split at h
    · simp only [Except.ok.injEq] at h
      subst h
      exact hout
    · split at h
      · split at h
        · exact ih _ _ _ _ _ hout h
        · split at h
          · exact ih _ _ _ _ _ hout h
          · split at h
            · exact absurd h (by simp)
            · split at h
              · exact absurd h (by simp)
              · split at h
                · exact absurd h (by simp)
                · rename_i chunks hchunks
                  rename_i topic htopic0 tcx tc2 htc2 optx
                  refine ih _ _ _ _ _ ?_ h
                  intro r hr
                  rcases List.mem_append.mp hr with h1 | h1
                  · exact hout r h1
                  · simp only [List.mem_map] at h1
                    obtain ⟨p, hp, hrp⟩ := h1
                    subst hrp
                    have hmem : p.2 ∈ chunks := by
                      rw [List.enum_eq_zip_range] at hp
                      exact (List.of_mem_zip hp).2
                    constructor
                    · rfl
                    · simpa using (chunk_text_invariant _ cs ov chunks hcs hchunks p.2 hmem).symm
      · exact ih _ _ _ _ _ hout h

/-! ## Shared concrete fixtures -/

/-- A placeholder chunk record used as a `getD` fallback. -/
def dummyChunk : ChunkRecord :=
  { id := "", doc_id := "", title := "", chunk_idx := 0, text := "",
    word_count := 0, start_word := 0, end_word := 0, topic_hint := .pyNone,
    source_dataset := "" }

/-- `s ≠ ""` whenever its character list is non-empty. -/
theorem str_ne_empty_of_data (s : String) (h : s.data ≠ []) : s ≠ "" := by
  intro hs
  subst hs
  exact h rfl

/-! ## C9 -/

/-- C9: every chunk record emitted by the pipeline (that is, appended by
`process_dataset` to the output list) satisfies
`end_word - start_word == word_count`, where `word_count` is the number of
whitespace-delimited words of the chunk's text — provided `chunk_size` is
positive, as the configuration surface requires, and the records already in
the accumulator satisfy the same invariant. -/
theorem c9_chunk_record_invariant (config : DatasetConfig) (stream : Option (List Doc))
    (cs ov : Int) (out : List ChunkRecord) (tc : Topics)
    (res : DsStats × List ChunkRecord × Topics)
    (hcs : 0 < cs) (hout : ∀ r ∈ out, chunkInv r)
    (h : process_dataset config stream cs ov out tc = .ok res) :
    ∀ r ∈ res.2.1, chunkInv r := by
  cases stream with
  | none =>
    simp only [process_dataset, Except.ok.injEq] at h
    subst h
    exact hout
  | some docs => exact procDocs_invariant config cs ov hcs docs 0 {} out tc res hout h

/-- Concrete source used by the C9 witness. -/
def c9cfg : DatasetConfig :=
  { name := "s", hf_path := "p", text_field := "text",
    topic_field := some "t", max_docs := 5000, min_words := 1 }

/-- Concrete document used by the C9 witness. -/
def c9doc : Doc := [("text", .str "alpha beta gamma"), ("t", .str "x")]

/-- Witness for C9 at a concrete run of `process_dataset`. -/
theorem c9_witness :
    chunkInv ((getOk (process_dataset c9cfg (some [c9doc]) 5 1 [] []) ({}, [], [])).2.1.getD 0 dummyChunk) := by
  have happ := c9_chunk_record_invariant c9cfg (some [c9doc]) 5 1 [] []
    (getOk (process_dataset c9cfg (some [c9doc]) 5 1 [] []) ({}, [], []))
    (by decide) (by simp) rfl
  apply happ
  have hlen : (getOk (process_dataset c9cfg (some [c9doc]) 5 1 [] []) ({}, [], [])).2.1.length = 1 := rfl
  cases hx : (getOk (process_dataset c9cfg (some [c9doc]) 5 1 [] []) ({}, [], [])).2.1 with
  | nil => rw [hx] at hlen; simp at hlen
  | cons a l => simp [List.getD]

/-! ## C1 -/

/-- A 500-word document. -/
def c1doc : String := joinSpace (List.replicate 500 "w")

/-- C1 counterexample: on a 500-word document with `chunk_size=200` and
`overlap=50`, `chunk_text` does NOT yield the three windows
`[0,200), [150,350), [300,500)` claimed. -/
theorem c1_counterexample :
    (chunk_text c1doc 200 50).map (fun l => l.map (fun t => (t.2.1, t.2.2))) ≠
      some [(0, 200), (150, 350), (300, 500)] := by decide

/-- C1 (amended): on a 500-word document with `chunk_size=200` and
`overlap=50`, `chunk_text` yields exactly FOUR windows
`[0,200), [150,350), [300,500), [450,500)` (each window's text splitting
back into `end - start` words): the loop keeps going when the remaining word
count from the next start equals `overlap`, so a trailing 50-word window at
450 is also emitted; only a remainder strictly smaller than `overlap` is
dropped. -/
theorem c1_chunk_windows :
    (pySplit c1doc).length = 500 ∧
    (chunk_text c1doc 200 50).map
        (fun l => l.map (fun t => ((pySplit t.1).length, t.2.1, t.2.2))) =
      some [(200, 0, 200), (200, 150, 350), (200, 300, 500), (50, 450, 500)] :=
  ⟨by decide, by decide⟩

/-! ## C4 -/

/-- C4: with `overlap >= chunk_size` the run does not fail fast — there is no
validation anywhere in the script — and instead `chunk_text` never
terminates on any document longer than `chunk_size` words: with
`chunk_size = overlap = 1` on the two-word document `"a b"`, the window
start never advances, the break condition never fires, and the loop runs
forever (the fueled model returns `none` for every fuel). -/
theorem c4_nontermination :
    (∀ (fuel : Nat) (acc : List (String × Int × Int)),
        chunkLoop (pySplit "a b") 1 1 fuel 0 acc = none) ∧
      chunk_text "a b" 1 1 = none := by
  have key := chunkLoop_stride_nonpos (pySplit "a b") 1 1 (by decide) (by decide) (by decide)
  refine ⟨fun fuel acc => key fuel 0 acc (by decide), ?_⟩
  show chunk_text "a b" 1 1 = none
  unfold chunk_text
  simp only
  rw [if_neg (by decide)]
  exact key _ 0 [] (by decide)

/-! ## C2 -/

/-- Source whose single document yields ten chunks. -/
def c2cfg : DatasetConfig :=
  { name := "s", hf_path := "p", text_field := "text",
    topic_field := some "t", max_docs := 5000, min_words := 1 }

/-- A ten-word document. -/
def c2doc : Doc := [("text", .str (joinSpace (List.replicate 10 "w"))), ("t", .str "x")]

/-- C2 counterexample: with a configured max of 2 chunks, `chunk_size=2`,
`overlap=1`, a run over one source whose first (and only issued) document is
10 words long emits 10 chunks — the budget bounds neither the documents
issued within a source nor the total emitted chunks. -/
theorem c2_counterexample :
    (prepare_huggingface_benchmark [(c2cfg, some [c2doc])] 2 2 1 none true {}).map
        (fun st => st.all_chunks.length) = .ok 10 ∧ ¬(10 ≤ 2) :=
  ⟨rfl, by decide⟩

/-- C2 (amended): once the running chunk total has reached the configured
max, the ingestion loop issues no further SOURCE — it returns immediately
with the state unchanged.  The check is per source, not per document: a
source already in flight completes all its quota-capped documents, so the
final total may exceed the configured max (see the counterexample). -/
theorem c2_budget_stops_sources (max_chunks cs ov : Int)
    (srcs : List (DatasetConfig × Option (List Doc))) (st : RunState)
    (h : max_chunks ≤ (st.all_chunks.length : Int)) :
    ingestLoop max_chunks cs ov srcs st = .ok st := by
  cases srcs with
  | nil => rfl
  | cons s rest =>
    cases s with
    | mk cfg stream =>
      simp only [ingestLoop]
      rw [if_pos h]

/-- Run state holding one chunk already. -/
def c2state : RunState :=
  { all_chunks := [dummyChunk], topic_counts := [], processed_datasets := [],
    dataset_stats := [], source_datasets := [], total_documents := 0,
    total_words := 0, disk := {}, checkpointTrace := [] }

/-- Witness for C2's amended theorem: with the budget already reached, the
loop does not touch the pending source. -/
theorem c2_witness :
    ingestLoop 1 200 50 [(c2cfg, some [c2doc])] c2state = .ok c2state :=
  c2_budget_stops_sources 1 200 50 [(c2cfg, some [c2doc])] c2state (by decide)

/-! ## C7 -/

/-- C7 counterexample: with the default budget of 20000 chunks and all four
sources remaining, `per_dataset_limit = 5000` and the quota pass overwrites
every descriptor's `max_docs` from its static 5000 down to 2500 — the static
cap is not preserved. -/
theorem c7_counterexample :
    ((20000 : Int) - 0).fdiv 4 = 5000 ∧
    DATASET_CONFIGS.map (fun c => c.max_docs) = [5000, 5000, 5000, 5000] ∧
    (allocate DATASET_CONFIGS 5000).map (fun c => c.max_docs) = [2500, 2500, 2500, 2500] ∧
    allocate DATASET_CONFIGS 5000 ≠ DATASET_CONFIGS :=
  ⟨by decide, by decide, by decide, by decide⟩

/-- C7 (amended): the quota allocator overwrites `max_docs` in place with
`min(static, per_dataset_limit // 2)` — so the static cap is lost whenever
the runtime cap is smaller — while every other descriptor field is
unchanged. -/
theorem c7_allocator_overwrites (c : DatasetConfig) (per : Int) :
    (alloc1 c per).max_docs = min c.max_docs (per.fdiv 2) ∧
    (alloc1 c per).name = c.name ∧
    (alloc1 c per).hf_path = c.hf_path ∧
    (alloc1 c per).hf_subset = c.hf_subset ∧
    (alloc1 c per).split = c.split ∧
    (alloc1 c per).text_field = c.text_field ∧
    (alloc1 c per).title_field = c.title_field ∧
    (alloc1 c per).topic_field = c.topic_field ∧
    (alloc1 c per).min_words = c.min_words ∧
    (alloc1 c per).trust_remote_code = c.trust_remote_code ∧
    allocate [c] per = [alloc1 c per] :=
  ⟨rfl, rfl, rfl, rfl, rfl, rfl, rfl, rfl, rfl, rfl, rfl⟩

/-! ## C6 -/

/-- C6 counterexample: in the finalize sequence (both checkpoint artifacts
present), no checkpoint deletion precedes a final-output write — there is no
point at which the checkpoint is removed but the final artifacts are not yet
written. -/
theorem c6_counterexample :
    ¬ ∃ i j : Fin (finalizeEvents true true).length, i < j ∧
        ((finalizeEvents true true).get i).isDelete = true ∧
        ((finalizeEvents true true).get j).isFinalWrite = true := by decide

/-- C6 (amended): during finalize the final chunk stream and metadata are
completely written BEFORE checkpoint deletion begins: the event trace is the
two final writes followed only by deletions, whichever checkpoint artifacts
exist. -/
theorem c6_writes_before_deletes (b1 b2 : Bool) :
    ∃ ds : List FinalizeEvent,
      finalizeEvents b1 b2 =
        [FinalizeEvent.writeFinalChunks, FinalizeEvent.writeFinalMetadata] ++ ds ∧
      ds.all FinalizeEvent.isDelete = true := by
  cases b1 <;> cases b2 <;> exact ⟨_, rfl, rfl⟩

/-! ## C5 -/

/-- C5 counterexample: with the chunk file present and a corrupt
(unparseable) sidecar, `load_checkpoint` raises the parse error rather than
returning the empty state. -/
theorem c5_counterexample :
    load_checkpoint { checkpoint := some (.valid []), checkpoint_meta := some .corrupt } =
      .error "json.decoder.JSONDecodeError" := rfl

/-- C5 (amended): `load_checkpoint` returns the full state when both
artifacts exist and parse, and the empty state when either artifact is
missing; but when both exist and either is corrupt, it raises the parse
exception instead of returning the empty state. -/
theorem c5_load_behavior (d : Disk) :
    ((d.checkpoint = none ∨ d.checkpoint_meta = none) →
        load_checkpoint d = .ok ([], {}, [])) ∧
    (∀ chunks meta, d.checkpoint = some (.valid chunks) →
        d.checkpoint_meta = some (.valid meta) →
        load_checkpoint d = .ok (chunks, meta, meta.processed_datasets)) ∧
    (∀ fc fm, d.checkpoint = some fc → d.checkpoint_meta = some fm →
        (fc = .corrupt ∨ fm = .corrupt) → ∃ e, load_checkpoint d = .error e) := by
  obtain ⟨oc, om⟩ := d
  cases oc with
  | none =>
    refine ⟨fun _ => rfl, ?_, ?_⟩
    · intro chunks meta hc _
      exact absurd hc (by simp)
    · intro fc fm hc _ _
      exact absurd hc (by simp)
  | some fc =>
    cases om with
    | none =>
      refine ⟨fun _ => rfl, ?_, ?_⟩
      · intro chunks meta _ hm
        exact absurd hm (by simp)
      · intro fc' fm' _ hm _
        exact absurd hm (by simp)
    | some fm =>
      refine ⟨?_, ?_, ?_⟩
      · intro h
        rcases h with h | h <;> exact absurd h (by simp)
      · intro chunks meta hc hm
        simp only [Option.some.injEq] at hc hm
        cases hc
        cases hm
        rfl
      · intro fc' fm' hc hm hcor
        simp only [Option.some.injEq] at hc hm
        cases hc
        cases hm
        rcases hcor with h | h
        · cases h
          exact ⟨_, rfl⟩
        · cases h
          cases fc with
          | valid a => exact ⟨_, rfl⟩
          | corrupt => exact ⟨_, rfl⟩

/-- Sidecar metadata fixture. -/
def c5meta : CheckpointMeta := { processed_datasets := ["s"], topic_counts := [] }

/-- Disk with both artifacts valid. -/
def c5diskValid : Disk :=
  { checkpoint := some (.valid [dummyChunk]), checkpoint_meta := some (.valid c5meta) }

/-- Disk with a corrupt sidecar. -/
def c5diskCorrupt : Disk :=
  { checkpoint := some (.valid [dummyChunk]), checkpoint_meta := some .corrupt }

/-- Witness for C5's amended theorem at concrete disks: a missing artifact
gives the empty state, two valid artifacts give the full state, and a
corrupt sidecar raises. -/
theorem c5_witness :
    load_checkpoint {} = .ok ([], {}, []) ∧
    load_checkpoint c5diskValid = .ok ([dummyChunk], c5meta, ["s"]) ∧
    ∃ e, load_checkpoint c5diskCorrupt = .error e :=
  ⟨(c5_load_behavior {}).1 (Or.inl rfl),
   (c5_load_behavior c5diskValid).2.1 [dummyChunk] c5meta rfl rfl,
   (c5_load_behavior c5diskCorrupt).2.2 (.valid [dummyChunk]) .corrupt rfl rfl (Or.inr rfl)⟩

/-! ## C8: lowercase topic strings -/

/-- No ASCII uppercase letter occurs in `s`. -/
def noUpper (s : String) : Bool :=
  s.data.all (fun c => !(64 < c.toNat && c.toNat < 91))

theorem toNat_ofNat_small (n : Nat) (h : n < 55296) : (Char.ofNat n).toNat = n := by
  have hv : n.isValidChar := Or.inl h
  simp [Char.ofNat, hv, Char.ofNatAux, Char.toNat, UInt32.toNat, BitVec.toNat_ofNatLt]

/-- Lowercasing produces no ASCII uppercase letters. -/
theorem noUpper_pyLower (s : String) : noUpper (pyLower s) = true := by
  simp only [noUpper, pyLower, List.all_map, List.all_eq_true]
  intro c _
  simp only [Function.comp]
  split
  next hc =>
    simp only [Bool.and_eq_true, decide_eq_true_eq] at hc
    simp only [Bool.not_eq_true', Bool.and_eq_false_iff, decide_eq_false_iff_not]
    rw [toNat_ofNat_small _ (by omega)]
    omega
  next hc =>
    simp only [Bool.and_eq_true, decide_eq_true_eq, not_and_or, not_le] at hc
    simp only [Bool.not_eq_true', Bool.and_eq_false_iff, decide_eq_false_iff_not]
    omega

/-- Decimal digit characters are in the range 48–57. -/
theorem natDigitsGo_chars :
    ∀ (fuel n : Nat) (acc : List Char),
      (∀ c ∈ acc, 48 ≤ c.toNat ∧ c.toNat ≤ 57) →
      ∀ c ∈ natDigitsGo fuel n acc, 48 ≤ c.toNat ∧ c.toNat ≤ 57 := by
  intro fuel
  induction fuel with
  | zero => intro n acc hacc c hc; exact hacc c hc
  | succ m ih =>
    intro n acc hacc c hc
    simp only [natDigitsGo] at hc
    split at hc
    · rcases List.mem_cons.mp hc with h | h
      · subst h
        rw [toNat_ofNat_small _ (by omega)]
        omega
      · exact hacc c h
    · refine ih (n / 10) _ ?_ c hc
      intro d hd
      rcases List.mem_cons.mp hd with h | h
      · subst h
        have : n % 10 < 10 := Nat.mod_lt _ (by omega)
        rw [toNat_ofNat_small _ (by omega)]
        omega
      · exact hacc d h

/-- The decimal rendering of an integer contains no uppercase letters. -/
theorem noUpper_intStr (n : Int) : noUpper (intStr n) = true := by
  have hnat : ∀ m : Nat, noUpper (natStr m) = true := by
    intro m
    simp only [noUpper, natStr, natDigits, List.all_eq_true]
    intro c hc
    have := natDigitsGo_chars (m + 1) m [] (by simp) c hc
    simp only [Bool.not_eq_true', Bool.and_eq_false_iff, decide_eq_false_iff_not]
    omega
  unfold intStr
  split
  · simp only [noUpper, data_append, List.all_append, Bool.and_eq_true]
    exact ⟨by decide, hnat _⟩
  · exact hnat _

/-- Replacing dots with underscores preserves the absence of uppercase
letters. -/
theorem noUpper_pyReplaceDot (s : String) (h : noUpper s = true) :
    noUpper (pyReplaceDot s) = true := by
  simp only [noUpper, pyReplaceDot, List.all_map, List.all_eq_true] at *
  intro c hc
  simp only [Function.comp]
  split
  · decide
  · exact h c hc

theorem pyLower_data_length (s : String) : (pyLower s).data.length = s.data.length := by
  simp [pyLower]

theorem pyReplaceDot_data_length (s : String) :
    (pyReplaceDot s).data.length = s.data.length := by
  simp [pyReplaceDot]

/-- Appending preserves the absence of uppercase letters. -/
theorem noUpper_append (a b : String) (ha : noUpper a = true) (hb : noUpper b = true) :
    noUpper (a ++ b) = true := by
  simp only [noUpper, data_append, List.all_append, Bool.and_eq_true] at *
  exact ⟨ha, hb⟩

/-- `pyLower` of a non-empty string is non-empty. -/
theorem pyLower_ne_empty (s : String) (h : s ≠ "") : pyLower s ≠ "" := by
  refine str_ne_empty_of_data _ ?_
  intro hd
  apply h
  have := pyLower_data_length s
  rw [hd] at this
  cases hs : s.data with
  | nil => exact congrArg String.mk hs
  | cons c l => rw [hs] at this; simp at this

/-- `pyReplaceDot` of a non-empty string is non-empty. -/
theorem pyReplaceDot_ne_empty (s : String) (h : s ≠ "") : pyReplaceDot s ≠ "" := by
  refine str_ne_empty_of_data _ ?_
  intro hd
  apply h
  have := pyReplaceDot_data_length s
  rw [hd] at this
  cases hs : s.data with
  | nil => exact congrArg String.mk hs
  | cons c l => rw [hs] at this; simp at this

/-- Reduction of `extract_topic` on a present, non-empty topic field. -/
theorem extract_topic_eq (config : DatasetConfig) (doc : Doc) (tf : String) (v : PyVal)
    (htf : config.topic_field = some tf) (htfne : tf ≠ "")
    (hget : docGet doc tf = some v) :
    extract_topic config doc =
      (match v with
       | .list xs =>
         match xs with
         | [] => .ok (.str "unknown")
         | x :: _ => .ok x
       | .str s =>
         if s.data.any (· = ',') then .ok (.str (pyLower (pyStrip (beforeComma s))))
         else .ok (.str (pyReplaceDot (pyLower s)))
       | .int n => .ok (.str ("label_" ++ intStr n))
       | v => .ok (.str v.pyStr)) := by
  unfold extract_topic
  rw [htf]
  dsimp only
  rw [if_pos htfne]
  simp only [hget]
  cases v with
  | list xs => cases xs <;> rfl
  | str s => rfl
  | int n => rfl
  | pyNone => rfl

/-- Source with a list-valued topic field for the C8 counterexample. -/
def c8cfg : DatasetConfig :=
  { name := "s", hf_path := "p", topic_field := some "tags" }

/-- C8 counterexample: a list-valued topic field returns its first element
unmodified — here the non-lowercase string `"Python"` — so the extractor
does not always return a fully lowercase string. -/
theorem c8_counterexample :
    extract_topic c8cfg [("tags", .list [.str "Python"])] = .ok (.str "Python") ∧
      noUpper "Python" = false :=
  ⟨rfl, by decide⟩

/-- C8 (amended): `extract_topic` returns a non-empty, fully lowercase
string whenever the (present, non-empty-named) topic field's value is an
integer, a non-empty comma-free string, or a comma-containing string whose
segment before the first comma is non-empty after trimming.  (A list value
is returned as its raw first element and need not be lowercase — see the
counterexample — and an empty string value yields the empty string.) -/
theorem c8_topic_lowercase (config : DatasetConfig) (doc : Doc) (tf : String) (v : PyVal)
    (htf : config.topic_field = some tf) (htfne : tf ≠ "")
    (hget : docGet doc tf = some v)
    (hv : (∃ n, v = PyVal.int n) ∨
          (∃ s, v = PyVal.str s ∧ s ≠ "" ∧ s.data.any (· = ',') = false) ∨
          (∃ s, v = PyVal.str s ∧ s.data.any (· = ',') = true ∧
              pyStrip (beforeComma s) ≠ "")) :
    ∃ t, extract_topic config doc = .ok (.str t) ∧ t ≠ "" ∧ noUpper t = true := by
  rw [extract_topic_eq config doc tf v htf htfne hget]
  rcases hv with ⟨n, rfl⟩ | ⟨s, rfl, hne, hcomma⟩ | ⟨s, rfl, hcomma, hne⟩
  · refine ⟨"label_" ++ intStr n, rfl, ?_, noUpper_append _ _ (by decide) (noUpper_intStr n)⟩
    refine str_ne_empty_of_data _ ?_
    rw [data_append]
    simp [show ("label_" : String).data = ['l', 'a', 'b', 'e', 'l', '_'] from rfl]
  · refine ⟨pyReplaceDot (pyLower s), ?_, ?_, noUpper_pyReplaceDot _ (noUpper_pyLower s)⟩
    · show (if (s.data.any fun x => decide (x = ',')) = true then _ else _) = _
      rw [if_neg (by simp [hcomma])]
    · exact pyReplaceDot_ne_empty _ (pyLower_ne_empty _ hne)
  · refine ⟨pyLower (pyStrip (beforeComma s)), ?_, pyLower_ne_empty _ hne, noUpper_pyLower _⟩
    show (if (s.data.any fun x => decide (x = ',')) = true then _ else _) = _
    rw [if_pos hcomma]

/-- Witness for C8's amended theorem: a comma-separated tags value produces
the non-empty lowercase head tag. -/
theorem c8_witness :
    ∃ t, extract_topic c8cfg [("tags", .str "Python,Flask")] = .ok (.str t) ∧
        t ≠ "" ∧ noUpper t = true :=
  c8_topic_lowercase c8cfg [("tags", .str "Python,Flask")] "tags" (.str "Python,Flask")
    rfl (by decide) rfl
    (Or.inr (Or.inr ⟨"Python,Flask", rfl, by decide, by decide⟩))

/-! ## C10: chunk identifiers -/

theorem foldl_compressStep_length (l : List (Nat × Nat)) :
    ∀ s : List Nat, s.length = 8 → (l.foldl SHA256.compressStep s).length = 8 := by
  induction l with
  | nil => intro s h; simpa using h
  | cons x xs ih =>
    intro s h
    simp only [List.foldl_cons]
    exact ih _ rfl

theorem compressBlock_length (H b : List Nat) (h : H.length = 8) :
    (SHA256.compressBlock H b).length = 8 := by
  unfold SHA256.compressBlock
  simp only [List.length_map, List.length_zip]
  rw [h, foldl_compressStep_length _ H h]
  rfl

theorem foldl_compressBlock_length (blocks : List (List Nat)) :
    ∀ H : List Nat, H.length = 8 → (blocks.foldl SHA256.compressBlock H).length = 8 := by
  induction blocks with
  | nil => intro H h; simpa using h
  | cons b bs ih =>
    intro H h
    simp only [List.foldl_cons]
    exact ih _ (compressBlock_length H b h)

theorem flatten_map_four (H : List Nat) :
    ((H.map fun h => [h >>> 24 % 256, h >>> 16 % 256, h >>> 8 % 256, h % 256]).flatten).length
      = 4 * H.length := by
  induction H with
  | nil => rfl
  | cons x xs ih =>
    simp only [List.map_cons, List.flatten_cons, List.length_append, ih,
      List.length_cons]
    simp only [List.length_cons, List.length_nil]
    omega

/-- The SHA-256 digest is always 32 bytes long. -/
theorem sha256Bytes_length (msg : List Nat) : (SHA256.sha256Bytes msg).length = 32 := by
  unfold SHA256.sha256Bytes
  rw [flatten_map_four, foldl_compressBlock_length _ SHA256.H0 rfl]

theorem hexChars_append (l1 l2 : List Nat) :
    hexChars (l1 ++ l2) = hexChars l1 ++ hexChars l2 := by
  simp [hexChars]

theorem hexChars_length (l : List Nat) : (hexChars l).length = 2 * l.length := by
  induction l with
  | nil => rfl
  | cons x xs ih =>
    simp only [hexChars, List.map_cons, List.flatten_cons, List.length_append] at *
    rw [ih]
    simp [hexByteChars]
    omega

/-- `xs[a:b]` for in-range natural endpoints is plain take/drop. -/
theorem pySlice_nat (xs : List Nat) (a b : Nat)
    (ha : a ≤ xs.length) (hb : b ≤ xs.length) :
    pySlice xs (a : Int) (b : Int) = (xs.drop a).take (b - a) := by
  simp only [pySlice, pyIndex]
  rw [if_neg (by omega), if_neg (by omega)]
  simp only [Int.toNat_ofNat]
  rw [min_eq_left ha, min_eq_left hb]

/-- An ASCII hexadecimal digit (lowercase). -/
def isHexDigit (c : Char) : Bool :=
  (48 ≤ c.toNat && c.toNat ≤ 57) || (97 ≤ c.toNat && c.toNat ≤ 102)

theorem isHexDigit_hexDigitChar (k : Nat) (h : k < 16) :
    isHexDigit (hexDigitChar k) = true := by
  unfold hexDigitChar isHexDigit
  split
  · rw [toNat_ofNat_small _ (by omega)]
    simp only [Bool.or_eq_true, Bool.and_eq_true, decide_eq_true_eq]
    omega
  · rw [toNat_ofNat_small _ (by omega)]
    simp only [Bool.or_eq_true, Bool.and_eq_true, decide_eq_true_eq]
    omega

/-- Every character of a hex rendering is a lowercase hex digit. -/
theorem hexChars_digits (bs : List Nat) : ∀ c ∈ hexChars bs, isHexDigit c = true := by
  intro c hc
  simp only [hexChars, List.mem_flatten, List.mem_map] at hc
  obtain ⟨l, ⟨b, _, hbl⟩, hcl⟩ := hc
  subst hbl
  simp only [hexByteChars, List.mem_cons, List.mem_singleton] at hcl
  rcases hcl with h | h | h
  · subst h
    exact isHexDigit_hexDigitChar _ (Nat.mod_lt _ (by omega))
  · subst h
    exact isHexDigit_hexDigitChar _ (Nat.mod_lt _ (by omega))
  · exact absurd h (by simp)

/-- C10: the chunk identifier is a pure deterministic function of
`(source, document_id, chunk_index)`: it equals the first 16 bytes of the
SHA-256 digest of `"{source}:{document_id}:{chunk_index}"` formatted as
8-4-4-4-12 hexadecimal digit groups (the spec-side rendering
`spec_identifier`), calling it twice with identical inputs yields identical
output, and the result really consists of five dash-joined groups of 8, 4,
4, 4 and 12 lowercase hex digits. -/
theorem c10_identifier (source doc_id : String) (chunk_idx : Nat) :
    generate_chunk_id doc_id chunk_idx source = spec_identifier source doc_id chunk_idx ∧
    generate_chunk_id doc_id chunk_idx source = generate_chunk_id doc_id chunk_idx source ∧
    ∃ g1 g2 g3 g4 g5 : List Char,
      g1.length = 8 ∧ g2.length = 4 ∧ g3.length = 4 ∧ g4.length = 4 ∧ g5.length = 12 ∧
      (∀ c, (c ∈ g1 ∨ c ∈ g2 ∨ c ∈ g3 ∨ c ∈ g4 ∨ c ∈ g5) → isHexDigit c = true) ∧
      generate_chunk_id doc_id chunk_idx source =
        String.mk g1 ++ "-" ++ String.mk g2 ++ "-" ++ String.mk g3 ++ "-" ++
          String.mk g4 ++ "-" ++ String.mk g5 := by
  set digest := SHA256.sha256Bytes
    (utf8Encode (source ++ ":" ++ doc_id ++ ":" ++ natStr chunk_idx)) with hdigest
  have hd32 : digest.length = 32 := sha256Bytes_length _
  set b := digest.take 16 with hbdef
  have hb : b.length = 16 := by
    rw [hbdef, List.length_take, hd32]
    omega
  have hgen : generate_chunk_id doc_id chunk_idx source =
      hexStr (pySlice b 0 4) ++ "-" ++ hexStr (pySlice b 4 6) ++ "-" ++
        hexStr (pySlice b 6 8) ++ "-" ++ hexStr (pySlice b 8 10) ++ "-" ++
        hexStr (pySlice b 10 16) := rfl
  have hspec : spec_identifier source doc_id chunk_idx =
      String.mk ((hexChars b).take 8) ++ "-" ++ String.mk (((hexChars b).drop 8).take 4) ++ "-" ++
        String.mk (((hexChars b).drop 12).take 4) ++ "-" ++
        String.mk (((hexChars b).drop 16).take 4) ++ "-" ++
        String.mk (((hexChars b).drop 20).take 12) := rfl
  -- the five byte groups
  have q1 : pySlice b 0 4 = b.take 4 := by
    have h0 := pySlice_nat b 0 4 (by omega) (by omega)
    simp only [Nat.cast_ofNat, Nat.cast_zero] at h0
    rw [h0]
    simp
  have q2 : pySlice b 4 6 = (b.drop 4).take 2 := by
    have h0 := pySlice_nat b 4 6 (by omega) (by omega)
    simp only [Nat.cast_ofNat] at h0
    rw [h0]
  have q3 : pySlice b 6 8 = (b.drop 6).take 2 := by
    have h0 := pySlice_nat b 6 8 (by omega) (by omega)
    simp only [Nat.cast_ofNat] at h0
    rw [h0]
  have q4 : pySlice b 8 10 = (b.drop 8).take 2 := by
    have h0 := pySlice_nat b 8 10 (by omega) (by omega)
    simp only [Nat.cast_ofNat] at h0
    rw [h0]
  have hlen5 : (b.drop 10).length = 6 := by rw [List.length_drop, hb]
  have q5 : pySlice b 10 16 = b.drop 10 := by
    have h0 := pySlice_nat b 10 16 (by omega) (by omega)
    simp only [Nat.cast_ofNat] at h0
    rw [h0, show (16 - 10 : Nat) = 6 from rfl, ← hlen5, List.take_length]
  -- group lengths
  have hg1 : (b.take 4).length = 4 := by rw [List.length_take, hb]; omega
  have hg2 : ((b.drop 4).take 2).length = 2 := by
    rw [List.length_take, List.length_drop, hb]; omega
  have hg3 : ((b.drop 6).take 2).length = 2 := by
    rw [List.length_take, List.length_drop, hb]; omega
  have hg4 : ((b.drop 8).take 2).length = 2 := by
    rw [List.length_take, List.length_drop, hb]; omega
  -- decomposition of b into the five groups
  have e2 : (b.drop 4).take 2 ++ b.drop 6 = b.drop 4 := by
    have h0 := List.take_append_drop 2 (b.drop 4)
    rwa [List.drop_drop, show (4 + 2 : Nat) = 6 from rfl] at h0
  have e3 : (b.drop 6).take 2 ++ b.drop 8 = b.drop 6 := by
    have h0 := List.take_append_drop 2 (b.drop 6)
    rwa [List.drop_drop, show (6 + 2 : Nat) = 8 from rfl] at h0
  have e4 : (b.drop 8).take 2 ++ b.drop 10 = b.drop 8 := by
    have h0 := List.take_append_drop 2 (b.drop 8)
    rwa [List.drop_drop, show (8 + 2 : Nat) = 10 from rfl] at h0
  have hsplit : b = b.take 4 ++ ((b.drop 4).take 2 ++ ((b.drop 6).take 2 ++
      ((b.drop 8).take 2 ++ b.drop 10))) := by
    rw [e4, e3, e2, List.take_append_drop]
  -- hex of the decomposition
  have hhex : hexChars b = hexChars (b.take 4) ++ (hexChars ((b.drop 4).take 2) ++
      (hexChars ((b.drop 6).take 2) ++ (hexChars ((b.drop 8).take 2) ++
        hexChars (b.drop 10)))) := by
    conv_lhs => rw [hsplit]
    rw [hexChars_append, hexChars_append, hexChars_append, hexChars_append]
  -- spec-side group extraction
  have p1 : (hexChars b).take 8 = hexChars (b.take 4) := by
    rw [hhex]
    exact List.take_left' (by rw [hexChars_length, hg1])
  have s2 : (hexChars b).drop 8 = hexChars ((b.drop 4).take 2) ++
      (hexChars ((b.drop 6).take 2) ++ (hexChars ((b.drop 8).take 2) ++
        hexChars (b.drop 10))) := by
    rw [hhex]
    exact List.drop_left' (by rw [hexChars_length, hg1])
  have p2 : ((hexChars b).drop 8).take 4 = hexChars ((b.drop 4).take 2) := by
    rw [s2]
    exact List.take_left' (by rw [hexChars_length, hg2])
  have s3 : (hexChars b).drop 12 = hexChars ((b.drop 6).take 2) ++
      (hexChars ((b.drop 8).take 2) ++ hexChars (b.drop 10)) := by
    have h0 : (hexChars b).drop 12 = ((hexChars b).drop 8).drop 4 := by
      rw [List.drop_drop]
    rw [h0, s2]
    exact List.drop_left' (by rw [hexChars_length, hg2])
  have p3 : ((hexChars b).drop 12).take 4 = hexChars ((b.drop 6).take 2) := by
    rw [s3]
    exact List.take_left' (by rw [hexChars_length, hg3])
  have s4 : (hexChars b).drop 16 = hexChars ((b.drop 8).take 2) ++
      hexChars (b.drop 10) := by
    have h0 : (hexChars b).drop 16 = ((hexChars b).drop 12).drop 4 := by
      rw [List.drop_drop]
    rw [h0, s3]
    exact List.drop_left' (by rw [hexChars_length, hg3])
  have p4 : ((hexChars b).drop 16).take 4 = hexChars ((b.drop 8).take 2) := by
    rw [s4]
    exact List.take_left' (by rw [hexChars_length, hg4])
  have s5 : (hexChars b).drop 20 = hexChars (b.drop 10) := by
    have h0 : (hexChars b).drop 20 = ((hexChars b).drop 16).drop 4 := by
      rw [List.drop_drop]
    rw [h0, s4]
    exact List.drop_left' (by rw [hexChars_length, hg4])
  have hlenE : (hexChars (b.drop 10)).length = 12 := by
    rw [hexChars_length, hlen5]
  have p5 : ((hexChars b).drop 20).take 12 = hexChars (b.drop 10) := by
    rw [s5, ← hlenE, List.take_length]
  -- the three conjuncts
  refine ⟨?_, rfl, ?_⟩
  · rw [hgen, hspec, p1, p2, p3, p4, p5, q1, q2, q3, q4, q5]
    rfl
  · refine ⟨hexChars (b.take 4), hexChars ((b.drop 4).take 2),
      hexChars ((b.drop 6).take 2), hexChars ((b.drop 8).take 2),
      hexChars (b.drop 10), ?_, ?_, ?_, ?_, ?_, ?_, ?_⟩
    · rw [hexChars_length, hg1]
    · rw [hexChars_length, hg2]
    · rw [hexChars_length, hg3]
    · rw [hexChars_length, hg4]
    · exact hlenE
    · intro c hc
      rcases hc with h | h | h | h | h <;> exact hexChars_digits _ c h
    · rw [hgen, q1, q2, q3, q4, q5]
      rfl

/-! ## C3: resume -/

/-- The chunk list stored in a disk's checkpoint artifact (empty when the
artifact is missing or corrupt). -/
def diskChunks (d : Disk) : List ChunkRecord :=
  match d.checkpoint with
  | some (.valid l) => l
  | _ => []

/-- Source A for the C3 counterexample. -/
def c3cfgA : DatasetConfig :=
  { name := "a", hf_path := "p", text_field := "text",
    topic_field := some "t", max_docs := 5000, min_words := 1 }

/-- Source B for the C3 counterexample. -/
def c3cfgB : DatasetConfig := { c3cfgA with name := "b" }

/-- A three-word document (one chunk at `chunk_size = 5`). -/
def c3doc : Doc := [("text", .str "x y z"), ("t", .str "q")]

/-- Each source offers four documents. -/
def c3docs : List Doc := [c3doc, c3doc, c3doc, c3doc]

/-- The uninterrupted run: budget 8, two sources. -/
def c3full : RunState :=
  getOk (prepare_huggingface_benchmark [(c3cfgA, some c3docs), (c3cfgB, some c3docs)]
    8 5 1 none true {}) emptyRunState

/-- The checkpoint saved after source A completed. -/
def c3d1 : Disk := c3full.checkpointTrace.getD 0 {}

/-- The run resumed from that checkpoint with the same budget and
configuration. -/
def c3resumed : RunState :=
  getOk (prepare_huggingface_benchmark [(c3cfgA, some c3docs), (c3cfgB, some c3docs)]
    8 5 1 none true c3d1) emptyRunState

/-- C3 counterexample: the uninterrupted run emits 4 chunks (caps 2+2 from
splitting the budget over two sources), but the resumed run emits 5 — after
resuming, the quota is recomputed over the single remaining source, giving
source B a cap of 3 instead of 2 — so the final chunk sets differ even
ignoring order. -/
theorem c3_counterexample :
    c3full.all_chunks.length = 4 ∧ c3resumed.all_chunks.length = 5 ∧
      ¬ c3resumed.all_chunks.Perm c3full.all_chunks := by
  refine ⟨rfl, rfl, fun h => ?_⟩
  have hlen := h.length_eq
  have h5 : c3resumed.all_chunks.length = 5 := rfl
  have h4 : c3full.all_chunks.length = 4 := rfl
  omega

theorem ingestLoop_nil (M cs ov : Int) (st : RunState) :
    ingestLoop M cs ov [] st = .ok st := rfl

theorem ingestLoop_cons (M cs ov : Int) (config : DatasetConfig)
    (stream : Option (List Doc)) (rest : List (DatasetConfig × Option (List Doc)))
    (st : RunState) :
    ingestLoop M cs ov ((config, stream) :: rest) st =
      if M ≤ (st.all_chunks.length : Int) then .ok st
      else
        match process_dataset config stream cs ov st.all_chunks st.topic_counts with
        | .error e => .error e
        | .ok (dstats, chunks2, topics2) =>
          ingestLoop M cs ov rest
            { all_chunks := chunks2,
              topic_counts := topics2,
              processed_datasets := st.processed_datasets ++ [config.name],
              dataset_stats := st.dataset_stats ++ [(config.name, dstats)],
              source_datasets := st.source_datasets ++ [config.name],
              total_documents := st.total_documents + dstats.documents,
              total_words := st.total_words + dstats.words,
              disk := save_checkpoint chunks2
                { processed_datasets := st.processed_datasets ++ [config.name],
                  topic_counts := topics2 },
              checkpointTrace := st.checkpointTrace ++ [save_checkpoint chunks2
                { processed_datasets := st.processed_datasets ++ [config.name],
                  topic_counts := topics2 }] } := rfl

theorem alloc1_name (c : DatasetConfig) (per : Int) : (alloc1 c per).name = c.name := rfl

/-- C3 (amended): resuming after source A completed never reprocesses A and
keeps its checkpointed chunks, but the runtime document caps of the
remaining sources are recomputed from the post-resume budget and remaining
source count, so the resumed run reproduces the uninterrupted run's chunk
list exactly WHEN the recomputed cap for the remaining source equals the
original one (for instance when the static cap binds in both runs); in
general the recomputed cap differs and the chunk sets diverge (see the
counterexample). -/
theorem c3_resume_cap_equal (a b : DatasetConfig) (da db : Option (List Doc))
    (M cs ov : Int) (r : RunState) (d1 : Disk)
    (hab : a.name ≠ b.name)
    (hfull : prepare_huggingface_benchmark [(a, da), (b, db)] M cs ov none true {} = .ok r)
    (hd1 : r.checkpointTrace.head? = some d1)
    (hne : diskChunks d1 ≠ [])
    (hcap : min b.max_docs (((M - ((diskChunks d1).length : Int)).fdiv 1).fdiv 2) =
            min b.max_docs (((M - 0).fdiv 2).fdiv 2)) :
    ∃ r', prepare_huggingface_benchmark [(a, da), (b, db)] M cs ov none true d1 = .ok r' ∧
      r'.all_chunks = r.all_chunks := by
  replace hfull :
      ingestLoop M cs ov
        [(alloc1 a ((M - 0).fdiv 2), da), (alloc1 b ((M - 0).fdiv 2), db)]
        emptyRunState = .ok r := hfull
  rw [ingestLoop_cons] at hfull
  by_cases hM0 : M ≤ ((emptyRunState.all_chunks.length : Nat) : Int)
  · rw [if_pos hM0] at hfull
    simp only [Except.ok.injEq] at hfull
    subst hfull
    simp [emptyRunState] at hd1
  · rw [if_neg hM0] at hfull
    cases hA : process_dataset (alloc1 a ((M - 0).fdiv 2)) da cs ov
        emptyRunState.all_chunks emptyRunState.topic_counts with
    | error e =>
      rw [hA] at hfull
      exact absurd hfull (by simp)
    | ok resA =>
      obtain ⟨sA, chA, tA⟩ := resA
      rw [hA] at hfull
      dsimp only [emptyRunState] at hfull
      simp only [alloc1_name, List.nil_append] at hfull
      have hbeqa : (a.name == a.name) = true := beq_self_eq_true a.name
      have hbeqb : (b.name == a.name) = false := beq_eq_false_iff_ne.mpr (Ne.symm hab)
      have hfilter :
          [(a, da), (b, db)].filter
              (fun p => !(([a.name] : List String).contains p.1.name)) = [(b, db)] := by
        simp only [List.filter_cons, List.filter_nil, List.contains_cons,
          List.contains_nil, hbeqa, hbeqb]
        simp
      rw [ingestLoop_cons] at hfull
      dsimp only at hfull
      by_cases hM1 : M ≤ (chA.length : Int)
      · rw [if_pos hM1] at hfull
        simp only [Except.ok.injEq] at hfull
        subst hfull
        simp only [List.head?_cons, Option.some.injEq] at hd1
        subst hd1
        have hload :
            prepare_huggingface_benchmark [(a, da), (b, db)] M cs ov none true
                (save_checkpoint chA { processed_datasets := [a.name], topic_counts := tA }) =
              ingestLoop M cs ov
                (if ([(a, da), (b, db)].filter
                      (fun p => !(([a.name] : List String).contains p.1.name))).isEmpty then
                  [(a, da), (b, db)].filter
                    (fun p => !(([a.name] : List String).contains p.1.name))
                else ([(a, da), (b, db)].filter
                    (fun p => !(([a.name] : List String).contains p.1.name))).map
                  (fun p => (alloc1 p.1 ((M - (chA.length : Int)).fdiv
                    (([(a, da), (b, db)].filter
                      (fun p => !(([a.name] : List String).contains p.1.name))).length : Int)), p.2)))
                { all_chunks := chA,
                  topic_counts := if chA.isEmpty then [] else tA,
                  processed_datasets := [a.name], dataset_stats := [], source_datasets := [],
                  total_documents := 0,
                  total_words := chA.foldl (fun a c => a + c.word_count) 0,
                  disk := save_checkpoint chA
                    { processed_datasets := [a.name], topic_counts := tA },
                  checkpointTrace := [] } := rfl
        rw [hfilter] at hload
        simp only [List.isEmpty_cons, List.map_cons, List.map_nil, List.length_cons,
          List.length_nil, Nat.zero_add, Nat.cast_one, Bool.false_eq_true, if_false] at hload
        rw [ingestLoop_cons] at hload
        dsimp only at hload
        rw [if_pos hM1] at hload
        exact ⟨_, hload, rfl⟩
      · rw [if_neg hM1] at hfull
        cases hB : process_dataset (alloc1 b ((M - 0).fdiv 2)) db cs ov chA tA with
        | error e =>
          rw [hB] at hfull
          exact absurd hfull (by simp)
        | ok resB =>
          obtain ⟨sB, chB, tB⟩ := resB
          rw [hB] at hfull
          dsimp only at hfull
          rw [ingestLoop_nil] at hfull
          simp only [Except.ok.injEq] at hfull
          subst hfull
          simp only [List.cons_append, List.nil_append, List.head?_cons,
            Option.some.injEq] at hd1
          subst hd1
          have hdc : diskChunks (save_checkpoint chA
              { processed_datasets := [a.name], topic_counts := tA }) = chA := rfl
          rw [hdc] at hcap hne
          have hisEmpty : chA.isEmpty = false := by
            cases chA with
            | nil => exact absurd rfl hne
            | cons x xs => rfl
          have hcfg : alloc1 b ((M - (chA.length : Int)).fdiv 1) =
              alloc1 b ((M - 0).fdiv 2) :=
            congrArg (fun m => { b with max_docs := m }) hcap
          have hload :
              prepare_huggingface_benchmark [(a, da), (b, db)] M cs ov none true
                  (save_checkpoint chA { processed_datasets := [a.name], topic_counts := tA }) =
                ingestLoop M cs ov
                  (if ([(a, da), (b, db)].filter
                        (fun p => !(([a.name] : List String).contains p.1.name))).isEmpty then
                    [(a, da), (b, db)].filter
                      (fun p => !(([a.name] : List String).contains p.1.name))
                  else ([(a, da), (b, db)].filter
                      (fun p => !(([a.name] : List String).contains p.1.name))).map
                    (fun p => (alloc1 p.1 ((M - (chA.length : Int)).fdiv
                      (([(a, da), (b, db)].filter
                        (fun p => !(([a.name] : List String).contains p.1.name))).length : Int)), p.2)))
                  { all_chunks := chA,
                    topic_counts := if chA.isEmpty then [] else tA,
                    processed_datasets := [a.name], dataset_stats := [], source_datasets := [],
                    total_documents := 0,
                    total_words := chA.foldl (fun a c => a + c.word_count) 0,
                    disk := save_checkpoint chA
                      { processed_datasets := [a.name], topic_counts := tA },
                    checkpointTrace := [] } := rfl
          rw [hfilter] at hload
          simp only [List.isEmpty_cons, List.map_cons, List.map_nil, List.length_cons,
            List.length_nil, Nat.zero_add, Nat.cast_one, hisEmpty, Bool.false_eq_true,
            if_false] at hload
          rw [ingestLoop_cons] at hload
          dsimp only at hload
          rw [if_neg hM1, hcfg, hB] at hload
          dsimp only at hload
          rw [ingestLoop_nil] at hload
          exact ⟨_, hload, rfl⟩

/-- Witness source A: static cap 1, so the cap binds in both runs. -/
def c3wA : DatasetConfig :=
  { name := "a", hf_path := "p", text_field := "text",
    topic_field := some "t", max_docs := 1, min_words := 1 }

/-- Witness source B. -/
def c3wB : DatasetConfig := { c3wA with name := "b" }

/-- The witness's uninterrupted run. -/
def c3wFull : RunState :=
  getOk (prepare_huggingface_benchmark [(c3wA, some c3docs), (c3wB, some c3docs)]
    8 5 1 none true {}) emptyRunState

/-- The checkpoint after source A in the witness run. -/
def c3wD1 : Disk := c3wFull.checkpointTrace.getD 0 {}

/-- Witness for C3's amended theorem: with static caps of 1 the recomputed
cap equals the original, and the resumed run reproduces the uninterrupted
chunk list. -/
theorem c3_witness :
    ∃ r', prepare_huggingface_benchmark [(c3wA, some c3docs), (c3wB, some c3docs)]
        8 5 1 none true c3wD1 = .ok r' ∧ r'.all_chunks = c3wFull.all_chunks :=
  c3_resume_cap_equal c3wA c3wB (some c3docs) (some c3docs) 8 5 1 c3wFull c3wD1
    (by decide) rfl rfl
    (by
      intro h
      have hl : (diskChunks c3wD1).length = 1 := rfl
      rw [h] at hl
      simp at hl)
    (by decide)
